import Mathlib

/-!
Shallow embedding of the Decoricks Finance Tracker persistence core
(src/src/utils/storage.ts, src/src/utils/notifications.ts,
src/src/components/ExportImport.tsx, src/src/App.tsx, src/unnamed/part_001),
with theorems settling the frozen claims about the ledger store, the
notification log, the export/import codec, the auto-export scheduler and the
usage tracker.

Modelling conventions:
- a browser storage slot (localStorage / sessionStorage key) is a `Cell`:
  `absent` models `getItem` returning null or the empty string (both falsy),
  `corrupt` a stored string `JSON.parse` throws on, and `stored v` a string
  that parses to the value `v`;
- JS timestamps (`Date.getTime()` milliseconds) are `Int`, so that the
  subtraction `now - last` keeps its sign as in JS;
- an object field read such as `data.transactions` that may be absent or
  falsy is an `Option`; `x || d` becomes `Option.getD` (a JS array, even the
  empty one, is truthy, so a present sequence is never replaced);
- `JSON.stringify` / `JSON.parse` of the browser are a faithful inverse pair;
  they are modelled at the parsed-value level (a `Cell` holds the parsed
  value, the export/import codec works on a `Json` tree).
-/

namespace Decoricks

/-! ### Data model (spec section 3) -/

inductive TxType where
  | income
  | expense
deriving DecidableEq

inductive Currency where
  | pkr
  | usd
deriving DecidableEq

/-- Modelled from the spec: the `Transaction` interface of `src/types.ts` is
not among the staged files; the fields follow spec section 3
(`amount: number` is modelled as `Int`, the calendar date as its string). -/
structure Transaction where
  id : String
  type : TxType
  amount : Int
  currency : Currency
  category : String
  description : String
  date : String
deriving DecidableEq

/-- Modelled from the spec: the `Category` interface of `src/types.ts` is not
among the staged files; spec section 3 gives `{ name: string, type: income|expense }`. -/
structure Category where
  name : String
  type : TxType
deriving DecidableEq

/-- The ledger (`AppData`): transactions plus categories, in stored order. -/
structure AppData where
  transactions : List Transaction
  categories : List Category
deriving DecidableEq

/-- Modelled from the spec: `DEFAULT_CATEGORIES` lives in
`src/data/categories.ts`, which is not among the staged files. The spec only
requires a built-in default category set of `{name, type}` entries; no claim
depends on its exact contents, so a representative non-empty set stands in. -/
def DEFAULT_CATEGORIES : List Category :=
  [⟨"Sales", TxType.income⟩, ⟨"Other Income", TxType.income⟩,
   ⟨"Rent", TxType.expense⟩, ⟨"Inventory", TxType.expense⟩]

/-! ### Storage slots -/

/-- One storage slot. `absent` models `getItem` returning null or `""` (both
falsy under the source's `if (!stored)` checks), `corrupt` contents that
`JSON.parse` throws on, `stored v` contents parsing to `v`. -/
inductive Cell (α : Type) where
  | absent
  | corrupt
  | stored (v : α)
deriving DecidableEq

/-- The ledger-shaped value `loadData`/`saveData` see after `JSON.parse`:
each field is `some` a sequence when present as an array, `none` when the
field is absent or falsy (for `saveData`, `none` is any non-array, failing
the `Array.isArray` validation). -/
structure RawLedger where
  transactions : Option (List Transaction)
  categories : Option (List Category)
deriving DecidableEq

/-- The `decoricks-finance-meta` record of `saveData` (storage.ts:84-89);
the `lastSaved` timestamp and the serialized-length checksum are elided, as
no claim mentions them. -/
structure MetaRecord where
  transactionCount : Nat
  categoryCount : Nat
deriving DecidableEq

/-- The four storage locations the ledger store touches:
`decoricks-finance-data` (primary), `decoricks-finance-backup` (backup,
whose extra `lastBackup`/`version`/`dataIntegrity` annotations `loadData`
never reads and are elided), `decoricks-finance-session` (sessionStorage)
and `decoricks-finance-meta` (metadata). -/
structure Store where
  primary : Cell RawLedger
  backup : Cell RawLedger
  session : Cell RawLedger
  meta : Cell MetaRecord
deriving DecidableEq

def emptyStore : Store :=
  ⟨Cell.absent, Cell.absent, Cell.absent, Cell.absent⟩

/-- A slot holding nothing usable: absent, or contents `JSON.parse` rejects. -/
def cellUnreadable {α : Type} (c : Cell α) : Prop :=
  c = Cell.absent ∨ c = Cell.corrupt

/-! ### loadData (storage.ts:6-57) -/

/-- `loadData` of src/src/utils/storage.ts:6-57. Control flow: read primary;
if absent, read backup and reshape (`transactions || []`,
`categories || DEFAULT_CATEGORIES`, then stringified and reparsed, which the
value-level model collapses); if still absent, read sessionStorage; parse
whatever string was found and apply the same `||` defaults. Any parse throw
lands in the catch handler (lines 35-51), which rereads the backup and
returns it with the same defaults, or falls through. The final fallback is
the empty ledger with default categories. The function is total: every
failure degrades to the next fallback, never raising to the caller. -/
def loadData (s : Store) : AppData :=
  -- the catch handler: recover from backup, else the empty-ledger default
  let recover : AppData :=
    match s.backup with
    | Cell.stored b => ⟨b.transactions.getD [], b.categories.getD DEFAULT_CATEGORIES⟩
    | _ => ⟨[], DEFAULT_CATEGORIES⟩
  match s.primary with
  | Cell.corrupt => recover
  | Cell.stored v => ⟨v.transactions.getD [], v.categories.getD DEFAULT_CATEGORIES⟩
  | Cell.absent =>
    match s.backup with
    | Cell.corrupt => recover
    | Cell.stored b => ⟨b.transactions.getD [], b.categories.getD DEFAULT_CATEGORIES⟩
    | Cell.absent =>
      match s.session with
      | Cell.corrupt => recover
      | Cell.stored v => ⟨v.transactions.getD [], v.categories.getD DEFAULT_CATEGORIES⟩
      | Cell.absent => ⟨[], DEFAULT_CATEGORIES⟩

/-! ### saveData (storage.ts:59-107) -/

/-- Which of the four `setItem` writes throw (e.g. the quota is exceeded)
during one `saveData` call; a location that throws does so on every attempt
within the call. -/
structure Faults where
  primary : Bool
  backup : Bool
  session : Bool
  meta : Bool
deriving DecidableEq

/-- The two user-visible alerts of `saveData` (storage.ts:101 and 104). -/
inductive Alert where
  | sessionOnlyBackup
  | unableToSave
deriving DecidableEq

/-- `saveData` of src/src/utils/storage.ts:59-107. Invalid input (null data
or a non-array `transactions`/`categories` field) is logged and abandoned
before any write. On valid input the primary, backup and session writes run
inside one try block; the metadata write has its own inner try/catch (lines
83-93). A throw from any of the first three writes lands in the outer catch
(lines 95-106), which attempts only the session write and surfaces an alert.
Returns the updated store and the alerts raised. -/
def saveData (input : Option RawLedger) (f : Faults) (s : Store) :
    Store × List Alert :=
  match input with
  | none => (s, [])
  | some d =>
    match d.transactions, d.categories with
    | some tx, some cats =>
      let payload : RawLedger := ⟨some tx, some cats⟩
      -- outer catch handler: best-effort session write, then a user alert
      let fallback : Store → Store × List Alert := fun s1 =>
        if f.session then (s1, [Alert.unableToSave])
        else ({s1 with session := Cell.stored payload}, [Alert.sessionOnlyBackup])
      if f.primary then fallback s
      else
        let s1 := {s with primary := Cell.stored payload}
        if f.backup then fallback s1
        else
          let s2 := {s1 with backup := Cell.stored payload}
          if f.session then fallback s2
          else
            let s3 := {s2 with session := Cell.stored payload}
            if f.meta then (s3, [])
            else ({s3 with meta := Cell.stored ⟨tx.length, cats.length⟩}, [])
    | _, _ => (s, [])

/-! ### Claims C1-C4: the ledger store -/

/-- C2: with the primary, backup and session locations all empty or
unparseable, `loadData` returns exactly the empty ledger with the default
categories. (That `loadData` never raises for any storage contents is
totality of the embedding, which mirrors the source's catch-all handlers:
`loadData` is a total function on `Store`.) -/
theorem loadData_all_unreadable_default (s : Store)
    (hp : cellUnreadable s.primary) (hb : cellUnreadable s.backup)
    (hs : cellUnreadable s.session) :
    loadData s = ⟨[], DEFAULT_CATEGORIES⟩ := by
  unfold loadData
  rcases hp with hp | hp <;> rcases hb with hb | hb <;>
    rcases hs with hs | hs <;> rw [hp, hb] <;> simp [hs]

theorem loadData_all_unreadable_default_witness :
    loadData ⟨Cell.absent, Cell.corrupt, Cell.absent, Cell.absent⟩
      = ⟨[], DEFAULT_CATEGORIES⟩ :=
  loadData_all_unreadable_default _ (Or.inl rfl) (Or.inr rfl) (Or.inl rfl)

/-- C3: whenever the primary location is empty or unparseable and the backup
location holds a parseable payload, `loadData` returns the backup's
transactions (empty sequence when the field is absent) and its categories
(`DEFAULT_CATEGORIES` when the field is absent), regardless of the session
location. -/
theorem loadData_backup_recovery (s : Store) (b : RawLedger)
    (hp : cellUnreadable s.primary) (hb : s.backup = Cell.stored b) :
    loadData s = ⟨b.transactions.getD [], b.categories.getD DEFAULT_CATEGORIES⟩ := by
  unfold loadData
  rcases hp with hp | hp <;> rw [hp, hb]

theorem loadData_backup_recovery_witness :
    loadData ⟨Cell.absent, Cell.stored ⟨none, none⟩, Cell.absent, Cell.absent⟩
      = ⟨[], DEFAULT_CATEGORIES⟩ :=
  loadData_backup_recovery _ ⟨none, none⟩ (Or.inl rfl) rfl

/-- C4: an input whose `transactions` or `categories` field is not a sequence
(or which is missing entirely) makes `saveData` abandon the save before any
write: every storage location keeps its prior contents and no alert is
raised. -/
theorem saveData_invalid_untouched (input : Option RawLedger) (f : Faults)
    (s : Store)
    (h : input = none ∨
      ∃ d, input = some d ∧ (d.transactions = none ∨ d.categories = none)) :
    saveData input f s = (s, []) := by
  rcases h with h | ⟨d, hd, h⟩
  · rw [h]; rfl
  · obtain ⟨dtx, dcats⟩ := d
    subst hd
    rcases dtx with _ | tx <;> rcases dcats with _ | cats <;>
      simp_all [saveData]

theorem saveData_invalid_untouched_witness :
    saveData (some ⟨none, some []⟩) ⟨false, false, false, false⟩ emptyStore
      = (emptyStore, []) :=
  saveData_invalid_untouched _ _ _ (Or.inr ⟨_, rfl, Or.inl rfl⟩)

/-- C1 counterexample: with valid input and only the backup write failing
(the metadata write itself does not fail), the metadata location is left
untouched — the claim that each of the four writes is attempted
independently, with a failure in one leaving the remaining writes attempted,
is false: the claim requires the metadata write to still happen. The primary
write (which precedes the failing one) does land. -/
theorem saveData_independence_counterexample :
    (saveData (some ⟨some [], some []⟩) ⟨false, true, false, false⟩
        emptyStore).1.meta = Cell.absent ∧
    (saveData (some ⟨some [], some []⟩) ⟨false, true, false, false⟩
        emptyStore).1.primary = Cell.stored ⟨some [], some []⟩ := by
  constructor <;> rfl

/-- C1 amended: the metadata write sits under its own guard, so its failure
never affects the other three writes; but the primary, backup and
session-scoped writes share a single guard, so a failure in any of them is
caught, skips the writes that follow it (the metadata write included) and
falls back to attempting only the session-scoped write, with a user-visible
warning. Precisely: primary is written iff its own write succeeds; backup
iff the primary and backup writes succeed; session iff its own write
succeeds (it is attempted on every path); metadata iff all four writes
succeed; and an alert is raised exactly when one of the first three writes
fails. -/
theorem saveData_writes_characterization (tx : List Transaction)
    (cats : List Category) (f : Faults) (s : Store) :
    (saveData (some ⟨some tx, some cats⟩) f s).1.primary
        = (if f.primary then s.primary else Cell.stored ⟨some tx, some cats⟩) ∧
    (saveData (some ⟨some tx, some cats⟩) f s).1.backup
        = (if f.primary || f.backup then s.backup
           else Cell.stored ⟨some tx, some cats⟩) ∧
    (saveData (some ⟨some tx, some cats⟩) f s).1.session
        = (if f.session then s.session else Cell.stored ⟨some tx, some cats⟩) ∧
    (saveData (some ⟨some tx, some cats⟩) f s).1.meta
        = (if f.primary || f.backup || f.session || f.meta then s.meta
           else Cell.stored ⟨tx.length, cats.length⟩) ∧
    (saveData (some ⟨some tx, some cats⟩) f s).2
        = (if f.primary || f.backup || f.session then
            [if f.session then Alert.unableToSave else Alert.sessionOnlyBackup]
           else []) := by
  obtain ⟨fp, fb, fs, fm⟩ := f
  cases fp <;> cases fb <;> cases fs <;> cases fm <;>
    simp [saveData]

/-! ### Notification log (notifications.ts) -/

inductive NotifType where
  | success
  | info
  | warning
  | reminder
deriving DecidableEq

/-- `AppNotification` of src/src/utils/notifications.ts:7-14. -/
structure AppNotification where
  id : String
  title : String
  message : String
  type : NotifType
  timestamp : String
  read : Bool
deriving DecidableEq

/-- `getNotifications` (notifications.ts:44-54): the stored list, or `[]`
when the slot is absent or unparseable. -/
def getNotifications (cell : Cell (List AppNotification)) :
    List AppNotification :=
  match cell with
  | Cell.stored l => l
  | _ => []

/-- `addNotification` (notifications.ts:64-95), at the log level: the
generated id and current timestamp are parameters, the system-notification
side effect is elided. Prepends the new unread entry and truncates to the 50
most-recent (`splice(50)` is `List.take 50`); returns the list
`saveNotifications` persists. -/
def addNotification (cell : Cell (List AppNotification))
    (id title message : String) (type : NotifType) (timestamp : String) :
    List AppNotification :=
  let notifications := getNotifications cell
  let updated : List AppNotification :=
    ⟨id, title, message, type, timestamp, false⟩ :: notifications
  if updated.length > 50 then updated.take 50 else updated

/-- Appending `n` notifications sequentially to an empty log, the i-th
carrying id `toString i`. -/
def appendRange (n : Nat) : List AppNotification :=
  (List.range n).foldl
    (fun log i =>
      addNotification (Cell.stored log) (toString i) "t" "m" NotifType.info "ts")
    []

theorem head?_take_of_pos {α : Type} (l : List α) (n : Nat) (h : 0 < n) :
    (l.take n).head? = l.head? := by
  cases l with
  | nil => simp
  | cons a as =>
    cases n with
    | zero => omega
    | succ m => rfl

set_option maxRecDepth 8000 in
/-- C5: after any `addNotification` the log starts with the new entry (with
`read = false`) and has length at most 50; and 60 sequential appends to an
empty log leave exactly the 50 most-recently-appended entries in
most-recent-first order. -/
theorem addNotification_cap_and_order :
    (∀ (cell : Cell (List AppNotification)) (id title message : String)
        (ty : NotifType) (ts : String),
      (addNotification cell id title message ty ts).length ≤ 50 ∧
      (addNotification cell id title message ty ts).head?
        = some ⟨id, title, message, ty, ts, false⟩) ∧
    appendRange 60
      = ((List.range 60).reverse.take 50).map
          (fun i => ⟨toString i, "t", "m", NotifType.info, "ts", false⟩) := by
  constructor
  · intro cell id title message ty ts
    simp only [addNotification]
    split
    · constructor
      · simp [List.length_take_le 50]
      · exact head?_take_of_pos _ 50 (by norm_num)
    · constructor
      · omega
      · rfl
  · rfl

/-! ### Auto-export scheduler (the autoDownload part of notifications.ts) -/

inductive ExportFormat where
  | json
  | csv
deriving DecidableEq

/-- `AutoDownloadSettings` (notifications.ts:236-241). `lastDownload` is
`none` for the empty string (no prior export, falsy under
`if (!settings.lastDownload)`), `some t` a timestamp in milliseconds. -/
structure AutoDownloadSettings where
  enabled : Bool
  lastDownload : Option Int
  downloadInterval : Int
  format : ExportFormat
deriving DecidableEq

/-- `WEEK_IN_MS` (notifications.ts:244). -/
def WEEK_IN_MS : Int := 7 * 24 * 60 * 60 * 1000

/-- `getAutoDownloadSettings` (notifications.ts:246-262): the stored record,
or the built-in defaults when the slot is absent or unparseable. -/
def getAutoDownloadSettings (cell : Cell AutoDownloadSettings) :
    AutoDownloadSettings :=
  match cell with
  | Cell.stored settings => settings
  | _ => ⟨true, none, WEEK_IN_MS, ExportFormat.json⟩

/-- `shouldAutoDownload` (notifications.ts:272-283), with the current time a
parameter. -/
def shouldAutoDownload (cell : Cell AutoDownloadSettings) (now : Int) : Bool :=
  let settings := getAutoDownloadSettings cell
  if !settings.enabled then false
  else
    match settings.lastDownload with
    | none => true
    | some lastDownload => decide (now - lastDownload ≥ settings.downloadInterval)

/-- The spec's wording for ShouldExport: auto-export is enabled AND (no
prior export timestamp is recorded OR the elapsed time since the last export
is at least the configured interval). Stated from the spec's words, to be
compared with `shouldAutoDownload` as embedded from the source. -/
def shouldExportSpec (settings : AutoDownloadSettings) (now : Int) : Prop :=
  settings.enabled = true ∧
    (settings.lastDownload = none ∨
      ∃ t, settings.lastDownload = some t ∧ now - t ≥ settings.downloadInterval)

/-- C8: for every persisted auto-export settings state and every current
time, `shouldAutoDownload` returns true exactly when the spec's ShouldExport
condition holds of the effective (defaulted) settings. -/
theorem shouldAutoDownload_iff_spec (cell : Cell AutoDownloadSettings)
    (now : Int) :
    shouldAutoDownload cell now = true
      ↔ shouldExportSpec (getAutoDownloadSettings cell) now := by
  unfold shouldAutoDownload shouldExportSpec
  cases he : (getAutoDownloadSettings cell).enabled <;>
    cases hl : (getAutoDownloadSettings cell).lastDownload <;>
      simp [he, hl]

/-- C10: with no persisted auto-export settings record (or an unparseable
one), reading the settings yields enabled, no last-export timestamp, the
7-day interval (604800000 ms) and JSON format; consequently on a completely
fresh state the due-check is true at every current time. -/
theorem autoDownload_fresh_defaults :
    getAutoDownloadSettings Cell.absent
        = ⟨true, none, 604800000, ExportFormat.json⟩ ∧
    getAutoDownloadSettings Cell.corrupt
        = ⟨true, none, 604800000, ExportFormat.json⟩ ∧
    (∀ now : Int, shouldAutoDownload Cell.absent now = true) ∧
    (∀ now : Int, shouldAutoDownload Cell.corrupt now = true) := by
  refine ⟨rfl, rfl, fun now => rfl, fun now => rfl⟩

/-! ### Usage tracker (src/unnamed/part_001) -/

/-- `LiveTrackingData` (part_001:1-11). Timestamps are milliseconds;
`lastActivity` is `none` when the persisted record carries no (or a falsy)
activity timestamp, which the source tests with `if (data.lastActivity)`.
The daily-usage mapping is an association list from date strings to counts. -/
structure LiveTrackingData where
  sessionStart : Int
  totalSessions : Nat
  transactionsAdded : Nat
  transactionsEdited : Nat
  transactionsDeleted : Nat
  exportsPerformed : Nat
  importsPerformed : Nat
  lastActivity : Option Int
  dailyUsage : List (String × Nat)
deriving DecidableEq

/-- `getLiveTrackingData` (part_001:15-36): the stored record, or the fresh
default (one session starting now, all counters zero, last activity now). -/
def getLiveTrackingData (cell : Cell LiveTrackingData) (now : Int) :
    LiveTrackingData :=
  match cell with
  | Cell.stored d => d
  | _ => ⟨now, 1, 0, 0, 0, 0, 0, some now, []⟩

/-- The 30-minute session gap (part_001:84). -/
def THIRTY_MINUTES : Int := 30 * 60 * 1000

/-- `initializeSession` (part_001:76-94): when the effective record carries
an activity timestamp and more than 30 minutes have elapsed, a new session
is counted and the session-start marker reset; the last-activity timestamp
is always set to now. Returns the record `saveLiveTrackingData` persists. -/
def initializeSession (cell : Cell LiveTrackingData) (now : Int) :
    LiveTrackingData :=
  let d := getLiveTrackingData cell now
  let d1 :=
    match d.lastActivity with
    | some lastActivity =>
      if now - lastActivity > THIRTY_MINUTES then
        {d with totalSessions := d.totalSessions + 1, sessionStart := now}
      else d
    | none => d
  {d1 with lastActivity := some now}

/-- A persisted usage record carrying no activity timestamp: on it the claim
that a missing prior activity forces a session increment fails. -/
def noActivityRecord : LiveTrackingData :=
  ⟨0, 5, 2, 1, 0, 0, 0, none, [("2024-01-05", 3)]⟩

/-- C9 counterexample: a persisted record with no prior activity timestamp
is a continuation, not a new session — `initializeSession` leaves the
session counter (and session-start marker) unchanged, contradicting the
claim that no prior activity forces an increment. -/
theorem initializeSession_no_activity_counterexample :
    noActivityRecord.lastActivity = none ∧
    (initializeSession (Cell.stored noActivityRecord) 1000000).totalSessions
        = noActivityRecord.totalSessions ∧
    (initializeSession (Cell.stored noActivityRecord) 1000000).sessionStart
        = noActivityRecord.sessionStart ∧
    ¬ (initializeSession (Cell.stored noActivityRecord) 1000000).totalSessions
        = noActivityRecord.totalSessions + 1 := by
  refine ⟨rfl, rfl, rfl, by decide⟩

/-- C9 amended: `initializeSession` always sets the last-activity timestamp
to now and leaves every activity counter and the daily-usage mapping
unchanged; it increments the total-session counter and resets the
session-start marker exactly when the effective record carries a prior
activity timestamp more than 30 minutes old. A record with no activity
timestamp keeps its counter and marker; a completely absent or unparseable
record defaults to one total session starting now before the check (so a
fresh state still ends at one session with markers at now). -/
theorem initializeSession_characterization (cell : Cell LiveTrackingData)
    (now : Int) :
    (initializeSession cell now).lastActivity = some now ∧
    (initializeSession cell now).transactionsAdded
        = (getLiveTrackingData cell now).transactionsAdded ∧
    (initializeSession cell now).transactionsEdited
        = (getLiveTrackingData cell now).transactionsEdited ∧
    (initializeSession cell now).transactionsDeleted
        = (getLiveTrackingData cell now).transactionsDeleted ∧
    (initializeSession cell now).exportsPerformed
        = (getLiveTrackingData cell now).exportsPerformed ∧
    (initializeSession cell now).importsPerformed
        = (getLiveTrackingData cell now).importsPerformed ∧
    (initializeSession cell now).dailyUsage
        = (getLiveTrackingData cell now).dailyUsage ∧
    ((∃ last, (getLiveTrackingData cell now).lastActivity = some last ∧
        now - last > THIRTY_MINUTES) →
      (initializeSession cell now).totalSessions
          = (getLiveTrackingData cell now).totalSessions + 1 ∧
      (initializeSession cell now).sessionStart = now) ∧
    (∀ last, (getLiveTrackingData cell now).lastActivity = some last →
        ¬ now - last > THIRTY_MINUTES →
      (initializeSession cell now).totalSessions
          = (getLiveTrackingData cell now).totalSessions ∧
      (initializeSession cell now).sessionStart
          = (getLiveTrackingData cell now).sessionStart) ∧
    ((getLiveTrackingData cell now).lastActivity = none →
      (initializeSession cell now).totalSessions
          = (getLiveTrackingData cell now).totalSessions ∧
      (initializeSession cell now).sessionStart
          = (getLiveTrackingData cell now).sessionStart) := by
  simp only [initializeSession]
  cases hl : (getLiveTrackingData cell now).lastActivity with
  | none => simp [hl]
  | some last =>
    by_cases hgt : now - last > THIRTY_MINUTES <;> simp [hl, hgt]
    omega

/-! ### Export/Import codec (storage.ts exportToJSON, ExportImport.tsx
handleImport, App.tsx handleImport)

`JSON.stringify`/`JSON.parse` are the browser's inverse pair; the codec is
modelled on the parsed-value tree. JS numbers in the ledger are integers
here (matching the `Transaction.amount` model). -/

/-- A parsed JSON value. `null` also stands for `undefined` where a missing
object field is read (both are falsy and neither is an object). -/
inductive Json where
  | null
  | bool (b : Bool)
  | num (n : Int)
  | str (s : String)
  | arr (elems : List Json)
  | obj (fields : List (String × Json))

/-- JS truthiness of a parsed JSON value: every array and object is truthy,
`null`/`false`/`0`/`""` are falsy. -/
def truthy : Json → Bool
  | Json.null => false
  | Json.bool b => b
  | Json.num n => decide (n ≠ 0)
  | Json.str s => decide (s ≠ "")
  | Json.arr _ => true
  | Json.obj _ => true

def lookupField : List (String × Json) → String → Option Json
  | [], _ => none
  | (k, v) :: rest, key => if k = key then some v else lookupField rest key

/-- Reading a property of a parsed JSON value: the first matching field of
an object, `none` (JS `undefined`) for a missing field or a non-object.
Property access on `null` throws in JS; `handleImport` treats that case
separately. -/
def getField (j : Json) (key : String) : Option Json :=
  match j with
  | Json.obj fields => lookupField fields key
  | _ => none

def txTypeToString : TxType → String
  | TxType.income => "income"
  | TxType.expense => "expense"

def currencyToString : Currency → String
  | Currency.pkr => "PKR"
  | Currency.usd => "USD"

/-- The JSON object `exportToJSON` (storage.ts:113-123) serializes for one
transaction: the `Transaction` record's own fields, in declaration order. -/
def encodeTransaction (t : Transaction) : Json :=
  Json.obj [("id", Json.str t.id), ("type", Json.str (txTypeToString t.type)),
    ("amount", Json.num t.amount),
    ("currency", Json.str (currencyToString t.currency)),
    ("category", Json.str t.category),
    ("description", Json.str t.description), ("date", Json.str t.date)]

def encodeCategory (c : Category) : Json :=
  Json.obj [("name", Json.str c.name),
    ("type", Json.str (txTypeToString c.type))]

/-- The JSON value `exportToJSON` produces: the full ledger as
`{transactions: [...], categories: [...]}` (pretty-printing elided at the
value level). -/
def encodeAppData (d : AppData) : Json :=
  Json.obj [("transactions", Json.arr (d.transactions.map encodeTransaction)),
    ("categories", Json.arr (d.categories.map encodeCategory))]

def decodeString : Json → Option String
  | Json.str s => some s
  | _ => none

def decodeInt : Json → Option Int
  | Json.num n => some n
  | _ => none

def decodeTxType (j : Json) : Option TxType :=
  match j with
  | Json.str "income" => some TxType.income
  | Json.str "expense" => some TxType.expense
  | _ => none

def decodeCurrency (j : Json) : Option Currency :=
  match j with
  | Json.str "PKR" => some Currency.pkr
  | Json.str "USD" => some Currency.usd
  | _ => none

/-- Reading a parsed transaction object back as a `Transaction` record:
models the imported JS object being used, field by field, as the ledger's
transaction after `onImport` replaces the app data. -/
def decodeTransaction (j : Json) : Option Transaction := do
  let id ← getField j "id" >>= decodeString
  let ty ← getField j "type" >>= decodeTxType
  let amount ← getField j "amount" >>= decodeInt
  let currency ← getField j "currency" >>= decodeCurrency
  let category ← getField j "category" >>= decodeString
  let descr ← getField j "description" >>= decodeString
  let date ← getField j "date" >>= decodeString
  pure ⟨id, ty, amount, currency, category, descr, date⟩

def decodeCategory (j : Json) : Option Category := do
  let name ← getField j "name" >>= decodeString
  let ty ← getField j "type" >>= decodeTxType
  pure ⟨name, ty⟩

def decodeEach {α : Type} (dec : Json → Option α) : List Json → Option (List α)
  | [] => some []
  | j :: rest => do
      let a ← dec j
      let as ← decodeEach dec rest
      pure (a :: as)

def decodeList {α : Type} (dec : Json → Option α) : Json → Option (List α)
  | Json.arr elems => decodeEach dec elems
  | _ => none

/-- The parsed import payload read back as an `AppData`. -/
def decodeAppData (j : Json) : Option AppData := do
  let tx ← getField j "transactions" >>= decodeList decodeTransaction
  let cats ← getField j "categories" >>= decodeList decodeCategory
  pure ⟨tx, cats⟩

/-- The import validation of ExportImport.tsx:30: both the `transactions`
and the `categories` property reads are truthy (a missing field reads as
`undefined`, which is falsy). -/
def truthyLedgerFields (j : Json) : Bool :=
  truthy ((getField j "transactions").getD Json.null)
    && truthy ((getField j "categories").getD Json.null)

def parseErrorMessage : String :=
  "Error importing data. Please check the file format."

def invalidFormatMessage : String :=
  "Invalid file format. Please select a valid backup file."

inductive ImportResult where
  | accepted (payload : Json)
  | rejected (message : String)

/-- `handleImport` of src/src/components/ExportImport.tsx:24-45. `none`
models file contents `JSON.parse` throws on. A parsed `null` is also the
parse-error alert: reading `.transactions` of null throws inside the same
try block. Otherwise the payload is accepted iff both field reads are
truthy, and passed to `onImport` unchanged. -/
def handleImport (content : Option Json) : ImportResult :=
  match content with
  | none => ImportResult.rejected parseErrorMessage
  | some Json.null => ImportResult.rejected parseErrorMessage
  | some j =>
    if truthyLedgerFields j then ImportResult.accepted j
    else ImportResult.rejected invalidFormatMessage

/-- The app-level import (src/src/App.tsx:208-224 with
ExportImport.tsx:24-45): on acceptance `handleSaveData(importedData)`
replaces the in-memory ledger with the payload wholesale; on rejection
`onImport` is never called and the ledger stays. The runtime ledger value is
a parsed JSON value. -/
def appImportState (current : Json) (content : Option Json) : Json :=
  match handleImport content with
  | ImportResult.accepted j => j
  | ImportResult.rejected _ => current

theorem decodeEach_map_of_decode {α : Type} (enc : α → Json)
    (dec : Json → Option α) (h : ∀ a, dec (enc a) = some a) (l : List α) :
    decodeEach dec (l.map enc) = some l := by
  induction l with
  | nil => rfl
  | cons a rest ih => simp [decodeEach, h a, ih]

theorem decodeTransaction_encodeTransaction (t : Transaction) :
    decodeTransaction (encodeTransaction t) = some t := by
  obtain ⟨id, ty, amount, currency, category, descr, date⟩ := t
  cases ty <;> cases currency <;> rfl

theorem decodeCategory_encodeCategory (c : Category) :
    decodeCategory (encodeCategory c) = some c := by
  obtain ⟨name, ty⟩ := c
  cases ty <;> rfl

/-- C6: exporting any ledger to JSON and importing the result passes
the import validation (the payload is accepted unchanged), and reading the
accepted payload back as a ledger yields the original: same transactions in
the same order, same categories in the same order. -/
theorem export_import_roundtrip (d : AppData) :
    handleImport (some (encodeAppData d))
        = ImportResult.accepted (encodeAppData d) ∧
    decodeAppData (encodeAppData d) = some d := by
  obtain ⟨tx, cats⟩ := d
  constructor
  · rfl
  · simp [decodeAppData, encodeAppData, getField, lookupField, decodeList,
      decodeEach_map_of_decode encodeTransaction decodeTransaction
        decodeTransaction_encodeTransaction,
      decodeEach_map_of_decode encodeCategory decodeCategory
        decodeCategory_encodeCategory]

/-- C7: an import payload that fails to parse, or whose `transactions` or
`categories` field read is not truthy, is rejected with a user-facing
message and leaves the existing ledger exactly as it was; a payload with
both fields truthy replaces the entire existing ledger with the payload (no
merge: the result is the payload itself, independent of the prior ledger). -/
theorem import_validation_behavior (current other j : Json) :
    (handleImport none = ImportResult.rejected parseErrorMessage ∧
      appImportState current none = current) ∧
    (truthyLedgerFields j = false →
      (∃ m, handleImport (some j) = ImportResult.rejected m) ∧
      appImportState current (some j) = current) ∧
    (truthyLedgerFields j = true →
      handleImport (some j) = ImportResult.accepted j ∧
      appImportState current (some j) = j ∧
      appImportState current (some j) = appImportState other (some j)) := by
  refine ⟨⟨rfl, rfl⟩, fun h => ?_, fun h => ?_⟩
  · cases j <;> simp [handleImport, appImportState, h]
  · cases j
    case null => simp [truthyLedgerFields, getField, truthy] at h
    all_goals simp [handleImport, appImportState, h]

end Decoricks
